import Mathlib

/-
  Shallow embedding of src/selfplay/multigame.cc (Leela Chess Zero batched
  self-play driver).  External collaborators (rules layer, position encoding,
  network, endgame tablebase) are modelled as function bundles; positions are
  abstract identifiers (Nat standing for a full position history), machine
  floats (network preference scores) are modelled as integers since the code
  only compares them, and the running maximum initialised to
  std::numeric_limits<float>::lowest() is modelled as an Option that starts
  at none (below every score).
-/

namespace lczero

/-- Absolute game outcome, as in GameResult of the lc0 chess utilities. -/
inductive GameResult where
  | UNDECIDED
  | WHITE_WON
  | DRAW
  | BLACK_WON
deriving DecidableEq, Repr, Inhabited

/-- Status returned by the Syzygy tablebase probe; only FAIL invalidates the WDL. -/
inductive ProbeState where
  | FAIL
  | OK
  | CHANGE_STM
  | ZEROING_BEST_MOVE
deriving DecidableEq, Repr

/-- Win/draw/loss classification from the side to move, as returned by probe_wdl. -/
inductive WDLScore where
  | WDL_LOSS
  | WDL_BLESSED_LOSS
  | WDL_DRAW
  | WDL_CURSED_WIN
  | WDL_WIN
deriving DecidableEq, Repr

/-- A move; default-constructed (data = 0) stands for the C++ null Move. -/
structure Move where
  data : Nat
deriving DecidableEq, Repr, Inhabited

/-- Network input format identifier (pblczero NetworkFormat InputFormat). -/
abbrev InputFormat := Nat

/-- Opaque encoded input planes produced by EncodePositionForNN. -/
abbrev Planes := Nat

/-- External collaborators of the core: the rules/position layer
    (ResetToPosition, MakeMove, GetPlyCount, ComputeGameResult, board
    queries, GenerateLegalMoves, IsBlackToMove), the position encoder
    EncodePositionForNN (returning planes and a symmetry transform), the
    move indexer as_nn_index, and Edge GetMove with a flip flag.  A position
    identifier (Nat) stands for a whole position history. -/
structure Dynamics where
  startPos : String → Nat
  makeMove : Nat → Move → Nat
  plyCount : Nat → Nat
  computeGameResult : Nat → GameResult
  pieceCount : Nat → Nat
  noLegalCastle : Nat → Bool
  isBlackToMove : Nat → Bool
  legalMoves : Nat → List Move
  encode : InputFormat → Nat → Planes × Int
  asNNIndex : Move → Int → Nat
  flipMove : Move → Bool → Move

/-- A game tree as the core observes it: the current position (history) and
    the edge list of the current head (filled by CreateEdges). -/
structure NodeTree where
  pos : Nat
  edges : List Move
deriving DecidableEq, Repr, Inhabited

/-- NodeTree ResetToPosition(start_fen, \x7b\x7d): a fresh tree at the FEN. -/
def NodeTree.ResetToPosition (D : Dynamics) (fen : String) : NodeTree :=
  { pos := D.startPos fen, edges := [] }

/-- NodeTree MakeMove: advance the position one ply; the new head has no edges yet. -/
def NodeTree.MakeMove (D : Dynamics) (t : NodeTree) (m : Move) : NodeTree :=
  { pos := D.makeMove t.pos m, edges := [] }

/-- Node CreateEdges(legal_moves): materialise the candidate edges on the head. -/
def NodeTree.CreateEdges (t : NodeTree) (moves : List Move) : NodeTree :=
  { t with edges := moves }

/-- The predictive model: its declared input format and, for a finished batch
    of inputs, a preference score per (sample, nn move index). -/
structure Network where
  inputFormat : InputFormat
  evalPVal : List Planes → Nat → Nat → Int

/-- A batch computation opened against a network (NewComputation). -/
structure NetworkComputation where
  net : Network
  inputs : List Planes

/-- Network NewComputation: an empty batch. -/
def Network.NewComputation (n : Network) : NetworkComputation :=
  { net := n, inputs := [] }

/-- NetworkComputation AddInput: append one encoded position to the batch. -/
def NetworkComputation.AddInput (c : NetworkComputation) (p : Planes) : NetworkComputation :=
  { c with inputs := c.inputs ++ [p] }

/-- NetworkComputation ComputeBlocking: synchronous; in the pure model the
    scores are a function of the gathered inputs, so this is the identity. -/
def NetworkComputation.ComputeBlocking (c : NetworkComputation) : NetworkComputation := c

/-- NetworkComputation GetPVal(sample, move_id): the preference score. -/
def NetworkComputation.GetPVal (c : NetworkComputation) (sample : Nat) (moveId : Nat) : Int :=
  c.net.evalPVal c.inputs sample moveId

/-- Per-side options; the core only reads the network handle. -/
structure PlayerOptions where
  network : Network

/-- PolicyEvaluator state: the open computation, the input format, the read
    cursor comp_idx and the per-sample transform log. -/
structure PolicyEvaluator where
  comp : NetworkComputation
  input_format : InputFormat
  comp_idx : Nat
  transforms : List Int

/-- PolicyEvaluator Reset: new computation, record input format, clear
    transforms, cursor to zero. -/
def PolicyEvaluator.Reset (player : PlayerOptions) : PolicyEvaluator :=
  { comp := player.network.NewComputation,
    input_format := player.network.inputFormat,
    comp_idx := 0,
    transforms := [] }

/-- PolicyEvaluator Gather: encode the tree position, push the transform,
    add the planes to the batch. -/
def PolicyEvaluator.Gather (D : Dynamics) (e : PolicyEvaluator) (t : NodeTree) : PolicyEvaluator :=
  let pt := D.encode e.input_format t.pos
  { e with transforms := e.transforms ++ [pt.2], comp := e.comp.AddInput pt.1 }

/-- PolicyEvaluator Run: ComputeBlocking on the batch. -/
def PolicyEvaluator.Run (e : PolicyEvaluator) : PolicyEvaluator :=
  { e with comp := e.comp.ComputeBlocking }

/-- Comparison p >= max_p where none models numeric_limits lowest(): every
    score passes against none. -/
def leLowest (m : Option Int) (p : Int) : Bool :=
  match m with
  | none => true
  | some v => decide (v ≤ p)

/-- One step of the MakeBestMove selection loop: keep (best, max_p), and on
    p >= max_p take this edge (so later edges win ties). -/
def bestStep (sc : Move → Int) (app : Move → Move) (st : Move × Option Int) (e : Move) :
    Move × Option Int :=
  if leLowest st.2 (sc e) then (app e, some (sc e)) else st

/-- The selection loop of MakeBestMove over the edge list, starting from the
    default-constructed Move and max_p = lowest. -/
def bestLoop (sc : Move → Int) (app : Move → Move) (edges : List Move) : Move × Option Int :=
  edges.foldl (bestStep sc app) ((default : Move), none)

/-- The score MakeBestMove reads for an edge: GetPVal at slot comp_idx and
    the nn index of the move under transforms[comp_idx]. -/
def PolicyEvaluator.scoreOf (D : Dynamics) (e : PolicyEvaluator) (m : Move) : Int :=
  e.comp.GetPVal e.comp_idx (D.asNNIndex m (e.transforms.getD e.comp_idx 0))

/-- The move MakeBestMove selects: the loop over the head edges; the applied
    move is the edge move flipped by IsBlackToMove. -/
def PolicyEvaluator.bestMove (D : Dynamics) (e : PolicyEvaluator) (t : NodeTree) : Move :=
  (bestLoop (e.scoreOf D) (fun m => D.flipMove m (D.isBlackToMove t.pos)) t.edges).1

/-- PolicyEvaluator MakeBestMove: apply the selected move to the tree and
    advance the read cursor by one. -/
def PolicyEvaluator.MakeBestMove (D : Dynamics) (e : PolicyEvaluator) (t : NodeTree) :
    PolicyEvaluator × NodeTree :=
  ({ e with comp_idx := e.comp_idx + 1 }, t.MakeMove D (e.bestMove D t))

/-- Syzygy tablebase handle: max cardinality and the WDL probe. -/
structure SyzygyTablebase where
  max_cardinality : Nat
  probe_wdl : Nat → ProbeState × WDLScore

/-- An opening: start FEN plus forced opening moves. -/
structure Opening where
  start_fen : String
  moves : List Move

/-- The orchestrator state: per-side options, the parallel tree and result
    sequences, the optional tablebase and the shared abort flag. -/
structure MultiSelfPlayGames where
  options_ : PlayerOptions × PlayerOptions
  trees_ : List NodeTree
  results_ : List GameResult
  syzygy_tb_ : Option SyzygyTablebase
  abort_ : Bool

/-- The MultiSelfPlayGames constructor: one session per opening, a fresh tree
    reset to the start FEN with the forced moves replayed, result UNDECIDED. -/
def mkMultiSelfPlayGames (D : Dynamics) (player1 player2 : PlayerOptions)
    (openings : List Opening) (syzygy_tb : Option SyzygyTablebase) : MultiSelfPlayGames :=
  { options_ := (player1, player2),
    trees_ := openings.map (fun o =>
      o.moves.foldl (fun t m => t.MakeMove D m) (NodeTree.ResetToPosition D o.start_fen)),
    results_ := openings.map (fun _ => GameResult.UNDECIDED),
    syzygy_tb_ := syzygy_tb,
    abort_ := false }

/-- MultiSelfPlayGames Abort: set the shared abort flag. -/
def MultiSelfPlayGames.Abort (g : MultiSelfPlayGames) : MultiSelfPlayGames :=
  { g with abort_ := true }

/-- Step 2 of the scan for one still-UNDECIDED session: terminal result from
    the history first; otherwise, within tablebase cardinality and with no
    legal castle, a non-FAIL probe resolves WDL_WIN/WDL_LOSS by the mover
    parity and everything else (cursed/blessed included) to DRAW. -/
def resolveSession (D : Dynamics) (tb : Option SyzygyTablebase) (t : NodeTree) : GameResult :=
  if D.computeGameResult t.pos ≠ GameResult.UNDECIDED then D.computeGameResult t.pos
  else
    match tb with
    | none => GameResult.UNDECIDED
    | some s =>
      if D.noLegalCastle t.pos ∧ D.pieceCount t.pos ≤ s.max_cardinality then
        let tb_side_black := D.plyCount t.pos % 2 == 1
        let pr := s.probe_wdl t.pos
        if pr.1 ≠ ProbeState.FAIL then
          match pr.2 with
          | WDLScore.WDL_WIN =>
            if tb_side_black then GameResult.BLACK_WON else GameResult.WHITE_WON
          | WDLScore.WDL_LOSS =>
            if tb_side_black then GameResult.WHITE_WON else GameResult.BLACK_WON
          | _ => GameResult.DRAW
        else GameResult.UNDECIDED
      else GameResult.UNDECIDED

/-- The resolution scan of one Play iteration: each still-UNDECIDED session
    gets resolveSession, every already-decided session keeps its result. -/
def scanResults (D : Dynamics) (tb : Option SyzygyTablebase)
    (trees : List NodeTree) (results : List GameResult) : List GameResult :=
  List.zipWith (fun t r => if r = GameResult.UNDECIDED then resolveSession D tb t else r)
    trees results

/-- Index of the first UNDECIDED entry, as the scan loop computes all_done
    and blacks_move. -/
def firstUndecided : List GameResult → Nat → Option Nat
  | [], _ => none
  | r :: rest, i =>
    if r = GameResult.UNDECIDED then some i else firstUndecided rest (i + 1)

/-- The guard of the gather and move loops: session still UNDECIDED and its
    ply parity equal to this round's blacks_move. -/
def duePred (D : Dynamics) (blacks_move : Bool) (s : NodeTree × GameResult) : Bool :=
  decide (s.2 = GameResult.UNDECIDED) && ((D.plyCount s.1.pos % 2 == 1) == blacks_move)

/-- The gather loop of one iteration: for each due session in index order,
    CreateEdges from the legal moves and Gather; returns the updated
    sessions, the evaluator, and the gathered indices in call order. -/
def gatherPhase (D : Dynamics) (blacks_move : Bool) :
    PolicyEvaluator → Nat → List (NodeTree × GameResult) →
      List (NodeTree × GameResult) × PolicyEvaluator × List Nat
  | e, _, [] => ([], e, [])
  | e, i, s :: rest =>
    if duePred D blacks_move s then
      let t := s.1.CreateEdges (D.legalMoves s.1.pos)
      let e2 := e.Gather D t
      let r := gatherPhase D blacks_move e2 (i + 1) rest
      ((t, s.2) :: r.1, r.2.1, i :: r.2.2)
    else
      let r := gatherPhase D blacks_move e (i + 1) rest
      (s :: r.1, r.2.1, r.2.2)

/-- The move loop of one iteration: for each due session in index order,
    MakeBestMove; each call is logged as (session index, slot read,
    transform read). -/
def movePhase (D : Dynamics) (blacks_move : Bool) :
    PolicyEvaluator → Nat → List (NodeTree × GameResult) →
      List (NodeTree × GameResult) × PolicyEvaluator × List (Nat × Nat × Int)
  | e, _, [] => ([], e, [])
  | e, i, s :: rest =>
    if duePred D blacks_move s then
      let call := (i, e.comp_idx, e.transforms.getD e.comp_idx 0)
      let et := e.MakeBestMove D s.1
      let r := movePhase D blacks_move et.1 (i + 1) rest
      ((et.2, s.2) :: r.1, r.2.1, call :: r.2.2)
    else
      let r := movePhase D blacks_move e (i + 1) rest
      (s :: r.1, r.2.1, r.2.2)

/-- Observation record of one Play iteration: the side index passed to Reset,
    the PlayerOptions passed to Reset, the gathered session indices, the
    transform log after the gather loop, and the MakeBestMove calls as
    (session index, slot read, transform read). -/
structure IterLog where
  side : Nat
  resetWith : PlayerOptions
  gathered : List Nat
  gatherTransforms : List Int
  moved : List (Nat × Nat × Int)

/-- The batched part of one Play iteration, once the scan has produced the
    updated results and found the first still-UNDECIDED session i: due-side
    determination from that session's ply parity, evaluator Reset with that
    side's options, gather loop, Run, move loop. -/
def playIterationStep (D : Dynamics) (g : MultiSelfPlayGames) (results2 : List GameResult)
    (i : Nat) : MultiSelfPlayGames × Option IterLog :=
  let blacks_move := D.plyCount ((g.trees_.getD i default).pos) % 2 == 1
  let idx := if blacks_move then 1 else 0
  let player := if blacks_move then g.options_.2 else g.options_.1
  let e0 := PolicyEvaluator.Reset player
  let sessions := g.trees_.zip results2
  let gp := gatherPhase D blacks_move e0 0 sessions
  let e1 := gp.2.1.Run
  let mp := movePhase D blacks_move e1 0 gp.1
  ({ g with trees_ := mp.1.map (fun s => s.1), results_ := mp.1.map (fun s => s.2) },
   some { side := idx, resetWith := player, gathered := gp.2.2,
          gatherTransforms := gp.2.1.transforms, moved := mp.2.2 })

/-- One iteration of the Play while-loop: abort check, resolution scan,
    all_done check, then the batched step.  Returns none as the second
    component when the loop breaks this iteration. -/
def playIteration (D : Dynamics) (g : MultiSelfPlayGames) :
    MultiSelfPlayGames × Option IterLog :=
  if g.abort_ then (g, none)
  else
    let results2 := scanResults D g.syzygy_tb_ g.trees_ g.results_
    match firstUndecided results2 0 with
    | none => ({ g with results_ := results2 }, none)
    | some i => playIterationStep D g results2 i

/-- MultiSelfPlayGames Play, with fuel bounding the number of iterations of
    the while-loop; collects the iteration logs. -/
def play (D : Dynamics) : Nat → MultiSelfPlayGames → MultiSelfPlayGames × List IterLog
  | 0, g => (g, [])
  | Nat.succ fuel, g =>
    let st := playIteration D g
    match st.2 with
    | none => (st.1, [])
    | some log =>
      let r := play D fuel st.1
      (r.1, log :: r.2)

/-- Indices, counted from i, of the entries satisfying the due guard: the
    common specification of the gather-order and move-order index lists. -/
def dueIdxs (D : Dynamics) (blacks_move : Bool) : Nat → List (NodeTree × GameResult) → List Nat
  | _, [] => []
  | i, s :: rest =>
    if duePred D blacks_move s then i :: dueIdxs D blacks_move (i + 1) rest
    else dueIdxs D blacks_move (i + 1) rest

/-- The per-entry effect of the gather loop: due entries get their edges
    created, others are untouched. -/
def gatherMap (D : Dynamics) (blacks_move : Bool) (s : NodeTree × GameResult) :
    NodeTree × GameResult :=
  if duePred D blacks_move s then (s.1.CreateEdges (D.legalMoves s.1.pos), s.2) else s

/-- Concrete network for test scenarios: scores 3, 5, 5 on nn indices 0, 1, 2. -/
def wNet : Network :=
  { inputFormat := 7,
    evalPVal := fun _ _ idx => if idx == 0 then 3 else if idx == 1 then 5 else if idx == 2 then 5 else 0 }

/-- Concrete second network for test scenarios. -/
def wNet2 : Network := { inputFormat := 8, evalPVal := fun _ _ _ => 0 }

/-- Concrete side-0 options. -/
def wP1 : PlayerOptions := { network := wNet }

/-- Concrete side-1 options. -/
def wP2 : PlayerOptions := { network := wNet2 }

/-- Concrete dynamics for test scenarios: a position identifier doubles as
    the ply count; identifier 50 is terminal (white wins). -/
def wD : Dynamics :=
  { startPos := fun _ => 0,
    makeMove := fun p m => p + m.data + 1,
    plyCount := fun p => p,
    computeGameResult := fun p => if p == 50 then GameResult.WHITE_WON else GameResult.UNDECIDED,
    pieceCount := fun p => p,
    noLegalCastle := fun p => decide (p < 10),
    isBlackToMove := fun p => p % 2 == 1,
    legalMoves := fun _ => [⟨0⟩, ⟨1⟩, ⟨2⟩],
    encode := fun f p => (p, (p : Int) + (f : Int)),
    asNNIndex := fun m _ => m.data,
    flipMove := fun m b => if b then ⟨m.data + 1000⟩ else m }

/-- Concrete tablebase: position 3 probes to a win for the mover, position 4
    probes to FAIL, everything else to an exact draw. -/
def wTB : SyzygyTablebase :=
  { max_cardinality := 6,
    probe_wdl := fun p =>
      if p == 3 then (ProbeState.OK, WDLScore.WDL_WIN)
      else if p == 4 then (ProbeState.FAIL, WDLScore.WDL_DRAW)
      else (ProbeState.OK, WDLScore.WDL_DRAW) }

/-- Concrete evaluator state holding one gathered sample with transform 0. -/
def wE : PolicyEvaluator :=
  { comp := { net := wNet, inputs := [0] }, input_format := 7, comp_idx := 0, transforms := [0] }

/-- Concrete tree with three candidate edges, white to move. -/
def wT : NodeTree := { pos := 2, edges := [⟨0⟩, ⟨1⟩, ⟨2⟩] }

/-- Concrete tree with no candidate edges. -/
def wTempty : NodeTree := { pos := 2, edges := [] }

/-- Concrete orchestrator with one even-parity and one odd-parity session. -/
def wG7 : MultiSelfPlayGames :=
  { options_ := (wP1, wP2),
    trees_ := [{ pos := 2, edges := [] }, { pos := 5, edges := [] }],
    results_ := [GameResult.UNDECIDED, GameResult.UNDECIDED],
    syzygy_tb_ := none,
    abort_ := false }

/-- Concrete orchestrator whose single session is already decided. -/
def wG5 : MultiSelfPlayGames :=
  { options_ := (wP1, wP2),
    trees_ := [{ pos := 2, edges := [] }],
    results_ := [GameResult.WHITE_WON],
    syzygy_tb_ := none,
    abort_ := false }

/-- Concrete orchestrator with the abort flag already set. -/
def wG8 : MultiSelfPlayGames :=
  { options_ := (wP1, wP2),
    trees_ := [{ pos := 2, edges := [] }],
    results_ := [GameResult.UNDECIDED],
    syzygy_tb_ := none,
    abort_ := true }

/-- Master characterisation of the MakeBestMove selection loop: on a
    non-empty edge list the result is the application of some edge whose
    score is maximal and after which every edge scores strictly lower (so
    later edges win ties). -/
theorem bestLoop_spec (sc : Move → Int) (app : Move → Move) (edges : List Move)
    (hne : edges ≠ []) :
    ∃ k, k < edges.length ∧
      bestLoop sc app edges = (app (edges.getD k default), some (sc (edges.getD k default))) ∧
      (∀ j, j < edges.length → sc (edges.getD j default) ≤ sc (edges.getD k default)) ∧
      (∀ j, j < edges.length → k < j →
        sc (edges.getD j default) < sc (edges.getD k default)) := by
  induction edges using List.reverseRecOn with
  | nil => exact absurd rfl hne
  | append_singleton l e ih =>
    have hfold : bestLoop sc app (l ++ [e]) = bestStep sc app (bestLoop sc app l) e := by
      simp [bestLoop]
    have hgetLast : (l ++ [e]).getD l.length default = e := by simp [List.getD]
    have hget : ∀ j, j < l.length → (l ++ [e]).getD j default = l.getD j default := by
      intro j hj; simp [List.getD, List.getElem?_append_left hj]
    have hlen : (l ++ [e]).length = l.length + 1 := by simp
    rcases eq_or_ne l [] with hl | hl
    · subst hl
      refine ⟨0, by simp, ?_, ?_, ?_⟩
      · simp [bestLoop, bestStep, leLowest]
      · intro j hj
        have hj0 : j = 0 := by simpa using hj
        subst hj0; exact le_refl _
      · intro j hj hj0
        have : j = 0 := by simpa using hj
        omega
    · obtain ⟨k, hk, heq, hmax, hlast⟩ := ih hl
      by_cases hcmp : sc (l.getD k default) ≤ sc e
      · refine ⟨l.length, by rw [hlen]; omega, ?_, ?_, ?_⟩
        · rw [hfold, heq, hgetLast]
          have hc : leLowest (some (sc (l.getD k default))) (sc e) = true := by
            simp only [leLowest, decide_eq_true_eq]
            exact hcmp
          simp only [bestStep]
          rw [hc]
          simp
        · intro j hj
          rw [hgetLast]
          rcases Nat.lt_or_ge j l.length with hjl | hjl
          · rw [hget j hjl]; exact le_trans (hmax j hjl) hcmp
          · have hj2 : j < l.length + 1 := by rw [hlen] at hj; exact hj
            have hje : j = l.length := by omega
            subst hje; rw [hgetLast]
        · intro j hj hjl
          have hj2 : j < l.length + 1 := by rw [hlen] at hj; exact hj
          omega
      · have hlt : sc e < sc (l.getD k default) := lt_of_not_ge hcmp
        refine ⟨k, by rw [hlen]; omega, ?_, ?_, ?_⟩
        · rw [hfold, heq, hget k hk]
          have hc : leLowest (some (sc (l.getD k default))) (sc e) = false := by
            simp only [leLowest, decide_eq_false_iff_not]
            exact hcmp
          simp only [bestStep]
          rw [hc]
          simp
        · intro j hj
          rw [hget k hk]
          rcases Nat.lt_or_ge j l.length with hjl | hjl
          · rw [hget j hjl]; exact hmax j hjl
          · have hj2 : j < l.length + 1 := by rw [hlen] at hj; exact hj
            have hje : j = l.length := by omega
            subst hje; rw [hgetLast]; exact le_of_lt hlt
        · intro j hj hkj
          rw [hget k hk]
          rcases Nat.lt_or_ge j l.length with hjl | hjl
          · rw [hget j hjl]; exact hlast j hjl hkj
          · have hj2 : j < l.length + 1 := by rw [hlen] at hj; exact hj
            have hje : j = l.length := by omega
            subst hje; rw [hgetLast]; exact hlt

/-- C2: in PolicyEvaluator MakeBestMove, if candidates i < j both attain the
    maximal preference score and no candidate after j attains it, the
    later-enumerated candidate j is the one selected and applied; no strictly
    lower-scoring candidate is selected. -/
theorem makeBestMove_tiebreak_later_wins (D : Dynamics) (e : PolicyEvaluator) (t : NodeTree)
    (i j : Nat) (hi : i < t.edges.length) (hj : j < t.edges.length) (hij : i < j)
    (heq : e.scoreOf D (t.edges.getD i default) = e.scoreOf D (t.edges.getD j default))
    (hmax : ∀ k, k < t.edges.length →
      e.scoreOf D (t.edges.getD k default) ≤ e.scoreOf D (t.edges.getD j default))
    (hlast : ∀ k, k < t.edges.length → j < k →
      e.scoreOf D (t.edges.getD k default) < e.scoreOf D (t.edges.getD j default)) :
    e.bestMove D t = D.flipMove (t.edges.getD j default) (D.isBlackToMove t.pos) ∧
    (e.MakeBestMove D t).2 =
      t.MakeMove D (D.flipMove (t.edges.getD j default) (D.isBlackToMove t.pos)) := by
  have hne : t.edges ≠ [] := by
    intro h; rw [h] at hj; simp at hj
  obtain ⟨k, hk, hloop, hmax2, hlast2⟩ := bestLoop_spec (e.scoreOf D)
    (fun m => D.flipMove m (D.isBlackToMove t.pos)) t.edges hne
  have hkj : k = j := by
    rcases Nat.lt_trichotomy k j with h | h | h
    · exfalso
      have h1 := hlast2 j hj h
      have h2 := hmax k hk
      linarith
    · exact h
    · exfalso
      have h1 := hlast k hk h
      have h2 := hmax2 j hj
      linarith
  subst hkj
  constructor
  · simp only [PolicyEvaluator.bestMove, hloop]
  · simp only [PolicyEvaluator.MakeBestMove, PolicyEvaluator.bestMove, hloop]

/-- Witness for C2: with scores 3, 5, 5 on the three candidates, the third
    (later of the two tied maximal ones) is selected and applied. -/
theorem makeBestMove_tiebreak_later_wins_witness :
    wE.bestMove wD wT = wD.flipMove (wT.edges.getD 2 default) (wD.isBlackToMove wT.pos) ∧
    (wE.MakeBestMove wD wT).2 =
      wT.MakeMove wD (wD.flipMove (wT.edges.getD 2 default) (wD.isBlackToMove wT.pos)) :=
  makeBestMove_tiebreak_later_wins wD wE wT 1 2 (by decide) (by decide) (by decide)
    (by decide) (by decide) (by decide)

/-- C9: MakeBestMove on a non-empty candidate list applies one of the listed
    candidates, namely the last one attaining the maximal score; on an empty
    candidate list it applies the default-constructed (null) move to the
    tree. -/
theorem makeBestMove_applies_candidate (D : Dynamics) (e : PolicyEvaluator) (t : NodeTree) :
    (t.edges = [] → e.bestMove D t = (default : Move) ∧
      (e.MakeBestMove D t).2.pos = D.makeMove t.pos (default : Move)) ∧
    (t.edges ≠ [] → ∃ k, k < t.edges.length ∧
      e.bestMove D t = D.flipMove (t.edges.getD k default) (D.isBlackToMove t.pos) ∧
      (∀ m, m < t.edges.length →
        e.scoreOf D (t.edges.getD m default) ≤ e.scoreOf D (t.edges.getD k default)) ∧
      (∀ m, m < t.edges.length → k < m →
        e.scoreOf D (t.edges.getD m default) < e.scoreOf D (t.edges.getD k default)) ∧
      (e.MakeBestMove D t).2.pos =
        D.makeMove t.pos (D.flipMove (t.edges.getD k default) (D.isBlackToMove t.pos))) := by
  constructor
  · intro h
    constructor
    · simp [PolicyEvaluator.bestMove, bestLoop, h]
    · simp [PolicyEvaluator.MakeBestMove, NodeTree.MakeMove, PolicyEvaluator.bestMove,
        bestLoop, h]
  · intro hne
    obtain ⟨k, hk, hloop, hmax, hlast⟩ := bestLoop_spec (e.scoreOf D)
      (fun m => D.flipMove m (D.isBlackToMove t.pos)) t.edges hne
    refine ⟨k, hk, ?_, hmax, hlast, ?_⟩
    · simp only [PolicyEvaluator.bestMove, hloop]
    · simp only [PolicyEvaluator.MakeBestMove, NodeTree.MakeMove, PolicyEvaluator.bestMove,
        hloop]

/-- Witness for C9: on a tree with no candidate edges the null move is
    applied to the tree. -/
theorem makeBestMove_applies_candidate_witness :
    wE.bestMove wD wTempty = (default : Move) ∧
    (wE.MakeBestMove wD wTempty).2.pos = wD.makeMove wTempty.pos (default : Move) :=
  (makeBestMove_applies_candidate wD wE wTempty).1 rfl

/-- C10: Abort only sets the shared flag: options, trees, results and the
    tablebase handle are unchanged, the flag ends true, and Abort is
    idempotent. -/
theorem abort_frame (g : MultiSelfPlayGames) :
    g.Abort.options_ = g.options_ ∧ g.Abort.trees_ = g.trees_ ∧
    g.Abort.results_ = g.results_ ∧ g.Abort.syzygy_tb_ = g.syzygy_tb_ ∧
    g.Abort.abort_ = true ∧ g.Abort.Abort = g.Abort :=
  ⟨rfl, rfl, rfl, rfl, rfl, rfl⟩

/-- C8: with the abort flag set, Play stops at the iteration boundary: the
    state is returned unchanged (no result written) and no iteration work
    (no Reset, Gather, probe or MakeBestMove) is logged. -/
theorem abort_stops_play (D : Dynamics) (fuel : Nat) (g : MultiSelfPlayGames)
    (hab : g.abort_ = true) : play D fuel g = (g, []) := by
  cases fuel with
  | zero => rfl
  | succ n => simp [play, playIteration, hab]

/-- Witness for C8: an aborted orchestrator is returned untouched with an
    empty iteration log. -/
theorem abort_stops_play_witness : play wD 5 wG8 = (wG8, []) :=
  abort_stops_play wD 5 wG8 rfl

theorem duePred_createEdges (D : Dynamics) (bm : Bool) (s : NodeTree × GameResult)
    (ms : List Move) : duePred D bm (s.1.CreateEdges ms, s.2) = duePred D bm s := rfl

theorem gatherMap_snd (D : Dynamics) (bm : Bool) (s : NodeTree × GameResult) :
    (gatherMap D bm s).2 = s.2 := by
  unfold gatherMap; split <;> rfl

theorem gatherMap_pos (D : Dynamics) (bm : Bool) (s : NodeTree × GameResult) :
    (gatherMap D bm s).1.pos = s.1.pos := by
  unfold gatherMap; split <;> rfl

theorem duePred_gatherMap (D : Dynamics) (bm : Bool) (s : NodeTree × GameResult) :
    duePred D bm (gatherMap D bm s) = duePred D bm s := by
  by_cases hd : duePred D bm s = true
  · rw [gatherMap, if_pos hd, duePred_createEdges]
  · rw [gatherMap, if_neg hd]

theorem dueIdxs_map_gatherMap (D : Dynamics) (bm : Bool) (l : List (NodeTree × GameResult)) :
    ∀ i, dueIdxs D bm i (l.map (gatherMap D bm)) = dueIdxs D bm i l := by
  induction l with
  | nil => intro i; rfl
  | cons s rest ih =>
    intro i
    simp only [List.map_cons, dueIdxs, duePred_gatherMap]
    by_cases hd : duePred D bm s = true
    · rw [if_pos hd, if_pos hd, ih]
    · rw [if_neg hd, if_neg hd, ih]

theorem gatherPhase_fst (D : Dynamics) (bm : Bool) (l : List (NodeTree × GameResult)) :
    ∀ e i, (gatherPhase D bm e i l).1 = l.map (gatherMap D bm) := by
  induction l with
  | nil => intro e i; rfl
  | cons s rest ih =>
    intro e i
    by_cases hd : duePred D bm s = true
    · simp only [gatherPhase, if_pos hd, List.map_cons, gatherMap, ih]
    · simp only [gatherPhase, if_neg hd, List.map_cons, gatherMap, ih]

theorem gatherPhase_idxs (D : Dynamics) (bm : Bool) (l : List (NodeTree × GameResult)) :
    ∀ e i, (gatherPhase D bm e i l).2.2 = dueIdxs D bm i l := by
  induction l with
  | nil => intro e i; rfl
  | cons s rest ih =>
    intro e i
    by_cases hd : duePred D bm s = true
    · simp only [gatherPhase, dueIdxs, if_pos hd, ih]
    · simp only [gatherPhase, dueIdxs, if_neg hd, ih]

theorem gatherPhase_comp_idx (D : Dynamics) (bm : Bool) (l : List (NodeTree × GameResult)) :
    ∀ e i, (gatherPhase D bm e i l).2.1.comp_idx = e.comp_idx := by
  induction l with
  | nil => intro e i; rfl
  | cons s rest ih =>
    intro e i
    by_cases hd : duePred D bm s = true
    · simp only [gatherPhase, if_pos hd, ih]; rfl
    · simp only [gatherPhase, if_neg hd, ih]

theorem gatherPhase_input_format (D : Dynamics) (bm : Bool)
    (l : List (NodeTree × GameResult)) :
    ∀ e i, (gatherPhase D bm e i l).2.1.input_format = e.input_format := by
  induction l with
  | nil => intro e i; rfl
  | cons s rest ih =>
    intro e i
    by_cases hd : duePred D bm s = true
    · simp only [gatherPhase, if_pos hd, ih]; rfl
    · simp only [gatherPhase, if_neg hd, ih]

theorem gatherPhase_transforms (D : Dynamics) (bm : Bool)
    (l : List (NodeTree × GameResult)) :
    ∀ e i, (gatherPhase D bm e i l).2.1.transforms
      = e.transforms ++ (l.filter (fun s => duePred D bm s)).map
          (fun s => (D.encode e.input_format s.1.pos).2) := by
  induction l with
  | nil => intro e i; simp [gatherPhase]
  | cons s rest ih =>
    intro e i
    by_cases hd : duePred D bm s = true
    · simp only [gatherPhase, if_pos hd, ih, List.filter_cons, hd, if_true, List.map_cons]
      simp [PolicyEvaluator.Gather, NodeTree.CreateEdges, List.append_assoc]
    · simp only [gatherPhase, if_neg hd, ih, List.filter_cons]

theorem movePhase_snd (D : Dynamics) (bm : Bool) (l : List (NodeTree × GameResult)) :
    ∀ e i, (movePhase D bm e i l).1.map (fun s => s.2) = l.map (fun s => s.2) := by
  induction l with
  | nil => intro e i; rfl
  | cons s rest ih =>
    intro e i
    by_cases hd : duePred D bm s = true
    · simp only [movePhase, if_pos hd, List.map_cons, ih]
    · simp only [movePhase, if_neg hd, List.map_cons, ih]

theorem movePhase_idxs (D : Dynamics) (bm : Bool) (l : List (NodeTree × GameResult)) :
    ∀ e i, (movePhase D bm e i l).2.2.map (fun c => c.1) = dueIdxs D bm i l := by
  induction l with
  | nil => intro e i; rfl
  | cons s rest ih =>
    intro e i
    by_cases hd : duePred D bm s = true
    · simp only [movePhase, dueIdxs, if_pos hd, List.map_cons, ih]
    · simp only [movePhase, dueIdxs, if_neg hd, ih]

theorem dueIdxs_length_cons (D : Dynamics) (bm : Bool) (s : NodeTree × GameResult)
    (rest : List (NodeTree × GameResult)) (i : Nat) :
    (dueIdxs D bm i (s :: rest)).length
      = if duePred D bm s then (dueIdxs D bm (i + 1) rest).length + 1
        else (dueIdxs D bm (i + 1) rest).length := by
  by_cases hd : duePred D bm s = true
  · rw [dueIdxs, if_pos hd, if_pos hd]; rfl
  · rw [dueIdxs, if_neg hd, if_neg hd]

theorem dueIdxs_length_const (D : Dynamics) (bm : Bool) (l : List (NodeTree × GameResult)) :
    ∀ i j, (dueIdxs D bm i l).length = (dueIdxs D bm j l).length := by
  induction l with
  | nil => intro i j; rfl
  | cons s rest ih =>
    intro i j
    rw [dueIdxs_length_cons, dueIdxs_length_cons, ih (i + 1) (j + 1)]

theorem movePhase_slots (D : Dynamics) (bm : Bool) (l : List (NodeTree × GameResult)) :
    ∀ e i, (movePhase D bm e i l).2.2.map (fun c => c.2.1)
      = List.range' e.comp_idx (dueIdxs D bm i l).length := by
  induction l with
  | nil => intro e i; rfl
  | cons s rest ih =>
    intro e i
    by_cases hd : duePred D bm s = true
    · simp only [movePhase, dueIdxs, if_pos hd, List.map_cons, ih, List.length_cons]
      rw [List.range'_succ]
      rfl
    · simp only [movePhase, dueIdxs, if_neg hd, ih]

theorem movePhase_reads (D : Dynamics) (bm : Bool) (l : List (NodeTree × GameResult)) :
    ∀ e i, (movePhase D bm e i l).2.2.map (fun c => c.2.2)
      = (List.range' e.comp_idx (dueIdxs D bm i l).length).map
          (fun k => e.transforms.getD k 0) := by
  induction l with
  | nil => intro e i; rfl
  | cons s rest ih =>
    intro e i
    by_cases hd : duePred D bm s = true
    · simp only [movePhase, dueIdxs, if_pos hd, List.map_cons, ih, List.length_cons]
      rw [List.range'_succ, List.map_cons]
      rfl
    · simp only [movePhase, dueIdxs, if_neg hd, ih]

theorem dueIdxs_length_filter (D : Dynamics) (bm : Bool) (l : List (NodeTree × GameResult)) :
    ∀ i, (dueIdxs D bm i l).length = (l.filter (fun s => duePred D bm s)).length := by
  induction l with
  | nil => intro i; rfl
  | cons s rest ih =>
    intro i
    by_cases hd : duePred D bm s = true
    · rw [dueIdxs, if_pos hd, List.filter_cons, if_pos (by simp [hd])]
      simp [ih]
    · rw [dueIdxs, if_neg hd, List.filter_cons, if_neg (by simp [hd])]
      exact ih (i + 1)

theorem map_getD_range {α : Type} (l : List α) (d : α) :
    (List.range l.length).map (fun k => l.getD k d) = l := by
  refine List.ext_getElem (by simp) ?_
  intro i h1 h2
  simp [List.getD, List.getElem?_eq_getElem h2]

theorem mem_dueIdxs (D : Dynamics) (bm : Bool) (l : List (NodeTree × GameResult)) :
    ∀ i j, j ∈ dueIdxs D bm i l →
      ∃ s, i ≤ j ∧ l[j - i]? = some s ∧ duePred D bm s = true := by
  induction l with
  | nil => intro i j h; simp [dueIdxs] at h
  | cons s rest ih =>
    intro i j h
    by_cases hd : duePred D bm s = true
    · rw [dueIdxs, if_pos hd] at h
      rcases List.mem_cons.mp h with he | hm
      · refine ⟨s, by omega, ?_, hd⟩
        rw [he]
        simp
      · obtain ⟨s2, hij, hget, hp⟩ := ih (i + 1) j hm
        refine ⟨s2, by omega, ?_, hp⟩
        rw [show j - i = (j - (i + 1)) + 1 by omega]
        simpa using hget
    · rw [dueIdxs, if_neg hd] at h
      obtain ⟨s2, hij, hget, hp⟩ := ih (i + 1) j h
      refine ⟨s2, by omega, ?_, hp⟩
      rw [show j - i = (j - (i + 1)) + 1 by omega]
      simpa using hget

theorem movePhase_stable (D : Dynamics) (bm : Bool) (l : List (NodeTree × GameResult)) :
    ∀ (e : PolicyEvaluator) (i j : Nat) (s : NodeTree × GameResult),
      l[j]? = some s → duePred D bm s = false →
      (movePhase D bm e i l).1[j]? = some s := by
  induction l with
  | nil => intro e i j s h; simp at h
  | cons x rest ih =>
    intro e i j s h hp
    cases j with
    | zero =>
      simp only [List.getElem?_cons_zero, Option.some_inj] at h
      subst h
      rw [movePhase, if_neg (by simp [hp])]
      simp
    | succ j2 =>
      simp only [List.getElem?_cons_succ] at h
      by_cases hd : duePred D bm x = true
      · rw [movePhase, if_pos hd]
        simpa using ih _ (i + 1) j2 s h hp
      · rw [movePhase, if_neg hd]
        simpa using ih _ (i + 1) j2 s h hp

theorem zip_getElem? {α β : Type} (l1 : List α) (l2 : List β) :
    ∀ (i : Nat), (l1.zip l2)[i]? = (l1[i]?).bind fun a => (l2[i]?).map fun b => (a, b) := by
  induction l1 generalizing l2 with
  | nil => intro i; simp
  | cons a r1 ih =>
    intro i
    cases l2 with
    | nil => cases i <;> simp
    | cons b r2 =>
      cases i with
      | zero => simp
      | succ i2 => simpa using ih r2 i2

theorem scanResults_getElem? (D : Dynamics) (tb : Option SyzygyTablebase)
    (trees : List NodeTree) :
    ∀ (results : List GameResult) (i : Nat),
      (scanResults D tb trees results)[i]? =
        (trees[i]?).bind fun t => (results[i]?).map fun r =>
          if r = GameResult.UNDECIDED then resolveSession D tb t else r := by
  induction trees with
  | nil => intro results i; simp [scanResults]
  | cons t rest ih =>
    intro results i
    cases results with
    | nil => cases i <;> simp [scanResults]
    | cons r rrest =>
      cases i with
      | zero => simp [scanResults]
      | succ i2 => simpa [scanResults] using ih rrest i2

theorem firstUndecided_spec (l : List GameResult) :
    ∀ i j, firstUndecided l i = some j →
      i ≤ j ∧ l[j - i]? = some GameResult.UNDECIDED ∧
        ∀ k, k < j - i → l[k]? ≠ some GameResult.UNDECIDED := by
  induction l with
  | nil => intro i j h; simp [firstUndecided] at h
  | cons r rest ih =>
    intro i j h
    rw [firstUndecided] at h
    by_cases hr : r = GameResult.UNDECIDED
    · rw [if_pos hr] at h
      have hji : i = j := by simpa using h
      subst hji
      refine ⟨le_refl i, by simp [hr], ?_⟩
      intro k hk
      omega
    · rw [if_neg hr] at h
      obtain ⟨hij, hget, hmin⟩ := ih (i + 1) j h
      refine ⟨by omega, ?_, ?_⟩
      · rw [show j - i = (j - (i + 1)) + 1 by omega]
        simpa using hget
      · intro k hk
        cases k with
        | zero => simpa using hr
        | succ k2 =>
          have hk2 : k2 < j - (i + 1) := by omega
          simpa using hmin k2 hk2

theorem scanResults_preserve (D : Dynamics) (tb : Option SyzygyTablebase)
    (trees : List NodeTree) (results : List GameResult) (i : Nat)
    (hi : i < trees.length)
    (hne : results.getD i GameResult.UNDECIDED ≠ GameResult.UNDECIDED) :
    (scanResults D tb trees results).getD i GameResult.UNDECIDED
      = results.getD i GameResult.UNDECIDED := by
  have ht : trees[i]? = some trees[i] := List.getElem?_eq_getElem hi
  obtain ⟨r, hrr⟩ : ∃ r, results[i]? = some r := by
    cases hh : results[i]? with
    | none => exact absurd (by simp [List.getD, hh]) hne
    | some r => exact ⟨r, rfl⟩
  have hrne : r ≠ GameResult.UNDECIDED := by
    intro he
    exact hne (by simp [List.getD, hrr, he])
  simp [List.getD, scanResults_getElem?, ht, hrr, if_neg hrne]

/-- C3: a still-UNDECIDED, non-terminal session within tablebase cardinality
    and with no castling rights, whose probe does not FAIL, is resolved by
    the scan: WDL_WIN becomes the absolute win of the side to move (black on
    odd ply count, white on even), WDL_LOSS the opposite absolute result,
    and every other classification (cursed or blessed included) DRAW. -/
theorem syzygy_resolution (D : Dynamics) (tb : SyzygyTablebase)
    (trees : List NodeTree) (results : List GameResult) (i : Nat) (t : NodeTree)
    (ht : trees[i]? = some t)
    (hres : results[i]? = some GameResult.UNDECIDED)
    (hterm : D.computeGameResult t.pos = GameResult.UNDECIDED)
    (hcast : D.noLegalCastle t.pos = true)
    (hcard : D.pieceCount t.pos ≤ tb.max_cardinality)
    (hfail : (tb.probe_wdl t.pos).1 ≠ ProbeState.FAIL) :
    ((tb.probe_wdl t.pos).2 = WDLScore.WDL_WIN →
      (scanResults D (some tb) trees results)[i]?
        = some (if D.plyCount t.pos % 2 == 1 then GameResult.BLACK_WON
                else GameResult.WHITE_WON)) ∧
    ((tb.probe_wdl t.pos).2 = WDLScore.WDL_LOSS →
      (scanResults D (some tb) trees results)[i]?
        = some (if D.plyCount t.pos % 2 == 1 then GameResult.WHITE_WON
                else GameResult.BLACK_WON)) ∧
    ((tb.probe_wdl t.pos).2 ≠ WDLScore.WDL_WIN →
      (tb.probe_wdl t.pos).2 ≠ WDLScore.WDL_LOSS →
      (scanResults D (some tb) trees results)[i]? = some GameResult.DRAW) ∧
    (scanResults D (some tb) trees results)[i]? ≠ some GameResult.UNDECIDED := by
  have hscan : (scanResults D (some tb) trees results)[i]?
      = some (resolveSession D (some tb) t) := by
    rw [scanResults_getElem?, ht, hres]
    simp
  have hrs : resolveSession D (some tb) t
      = (match (tb.probe_wdl t.pos).2 with
         | WDLScore.WDL_WIN =>
             if D.plyCount t.pos % 2 == 1 then GameResult.BLACK_WON else GameResult.WHITE_WON
         | WDLScore.WDL_LOSS =>
             if D.plyCount t.pos % 2 == 1 then GameResult.WHITE_WON else GameResult.BLACK_WON
         | _ => GameResult.DRAW) := by
    rw [resolveSession]
    rw [if_neg (by simp [hterm])]
    rw [if_pos ⟨hcast, hcard⟩, if_pos hfail]
  refine ⟨?_, ?_, ?_, ?_⟩
  · intro hw; rw [hscan, hrs, hw]
  · intro hw; rw [hscan, hrs, hw]
  · intro hw1 hw2
    rw [hscan, hrs]
    cases hw : (tb.probe_wdl t.pos).2
    · exact absurd hw hw2
    · rfl
    · rfl
    · rfl
    · exact absurd hw hw1
  · rw [hscan, hrs]
    cases hw : (tb.probe_wdl t.pos).2 <;> simp <;> split <;> simp

/-- Witness for C3: position 3 (odd ply count, so black to move) probes to a
    win for the mover and the session resolves to BLACK_WON. -/
theorem syzygy_resolution_witness :
    (scanResults wD (some wTB) [{ pos := 3, edges := [] }] [GameResult.UNDECIDED])[0]?
      = some (if wD.plyCount (3 : Nat) % 2 == 1 then GameResult.BLACK_WON
              else GameResult.WHITE_WON) :=
  (syzygy_resolution wD wTB [{ pos := 3, edges := [] }] [GameResult.UNDECIDED] 0
    { pos := 3, edges := [] } rfl rfl (by decide) (by decide) (by decide) (by decide)).1
    (by decide)

/-- C4: a FAILed probe is treated as no information: the session's result
    stays UNDECIDED for the iteration, exactly as if no tablebase were
    configured. -/
theorem syzygy_fail_ignored (D : Dynamics) (tb : SyzygyTablebase)
    (trees : List NodeTree) (results : List GameResult) (i : Nat) (t : NodeTree)
    (ht : trees[i]? = some t)
    (hres : results[i]? = some GameResult.UNDECIDED)
    (hterm : D.computeGameResult t.pos = GameResult.UNDECIDED)
    (hfail : (tb.probe_wdl t.pos).1 = ProbeState.FAIL) :
    (scanResults D (some tb) trees results)[i]? = some GameResult.UNDECIDED ∧
    resolveSession D (some tb) t = GameResult.UNDECIDED ∧
    resolveSession D (some tb) t = resolveSession D none t := by
  have h1 : resolveSession D (some tb) t = GameResult.UNDECIDED := by
    rw [resolveSession]
    rw [if_neg (by simp [hterm])]
    split
    · rw [if_neg (by simp [hfail])]
    · rfl
  have h2 : resolveSession D none t = GameResult.UNDECIDED := by
    rw [resolveSession]
    rw [if_neg (by simp [hterm])]
  refine ⟨?_, h1, h1.trans h2.symm⟩
  rw [scanResults_getElem?, ht, hres]
  simp [h1]

/-- Witness for C4: the session at position 4, whose probe FAILs, scans to
    UNDECIDED. -/
theorem syzygy_fail_ignored_witness :
    (scanResults wD (some wTB) [{ pos := 4, edges := [] }] [GameResult.UNDECIDED])[0]?
      = some GameResult.UNDECIDED :=
  (syzygy_fail_ignored wD wTB [{ pos := 4, edges := [] }] [GameResult.UNDECIDED] 0
    { pos := 4, edges := [] } rfl rfl (by decide) (by decide)).1

theorem playIteration_abort (D : Dynamics) (g : MultiSelfPlayGames)
    (hab : g.abort_ = true) : playIteration D g = (g, none) := by
  simp [playIteration, hab]

theorem playIteration_done (D : Dynamics) (g : MultiSelfPlayGames)
    (hab : g.abort_ = false)
    (hfind : firstUndecided (scanResults D g.syzygy_tb_ g.trees_ g.results_) 0 = none) :
    playIteration D g
      = ({ g with results_ := scanResults D g.syzygy_tb_ g.trees_ g.results_ }, none) := by
  simp [playIteration, hab, hfind]

theorem playIteration_step (D : Dynamics) (g : MultiSelfPlayGames) (i0 : Nat)
    (hab : g.abort_ = false)
    (hfind : firstUndecided (scanResults D g.syzygy_tb_ g.trees_ g.results_) 0 = some i0) :
    playIteration D g
      = playIterationStep D g (scanResults D g.syzygy_tb_ g.trees_ g.results_) i0 := by
  simp [playIteration, hab, hfind]

theorem playIterationStep_results (D : Dynamics) (g : MultiSelfPlayGames)
    (results2 : List GameResult) (i : Nat)
    (hlen2 : results2.length ≤ g.trees_.length) :
    (playIterationStep D g results2 i).1.results_ = results2 ∧
    (playIterationStep D g results2 i).1.trees_.length
      = (playIterationStep D g results2 i).1.results_.length ∧
    (playIterationStep D g results2 i).1.options_ = g.options_ ∧
    (playIterationStep D g results2 i).1.syzygy_tb_ = g.syzygy_tb_ ∧
    (playIterationStep D g results2 i).1.abort_ = g.abort_ := by
  refine ⟨?_, by simp [playIterationStep], rfl, rfl, rfl⟩
  show (movePhase D _ _ 0 (gatherPhase D _ _ 0 (g.trees_.zip results2)).1).1.map
      (fun s => s.2) = results2
  rw [movePhase_snd, gatherPhase_fst, List.map_map]
  have hcomp : ((fun (s : NodeTree × GameResult) => s.2)
      ∘ gatherMap D (D.plyCount ((g.trees_.getD i default).pos) % 2 == 1))
      = fun (s : NodeTree × GameResult) => s.2 := by
    funext s
    exact gatherMap_snd _ _ s
  rw [hcomp]
  exact List.map_snd_zip _ _ hlen2

/-- C1: within one iteration, the session sequence passed to Gather equals,
    element for element and in order, the session sequence passed to
    MakeBestMove; the Nth MakeBestMove call reads batch slot N and the
    transform recorded by the Nth Gather call (the cursor advances once per
    call). -/
theorem gather_move_alignment (D : Dynamics) (bm : Bool) (player : PlayerOptions)
    (l : List (NodeTree × GameResult)) :
    (movePhase D bm (gatherPhase D bm (PolicyEvaluator.Reset player) 0 l).2.1.Run 0
        (gatherPhase D bm (PolicyEvaluator.Reset player) 0 l).1).2.2.map (fun c => c.1)
      = (gatherPhase D bm (PolicyEvaluator.Reset player) 0 l).2.2 ∧
    (movePhase D bm (gatherPhase D bm (PolicyEvaluator.Reset player) 0 l).2.1.Run 0
        (gatherPhase D bm (PolicyEvaluator.Reset player) 0 l).1).2.2.map (fun c => c.2.1)
      = List.range (gatherPhase D bm (PolicyEvaluator.Reset player) 0 l).2.2.length ∧
    (movePhase D bm (gatherPhase D bm (PolicyEvaluator.Reset player) 0 l).2.1.Run 0
        (gatherPhase D bm (PolicyEvaluator.Reset player) 0 l).1).2.2.map (fun c => c.2.2)
      = (gatherPhase D bm (PolicyEvaluator.Reset player) 0 l).2.1.transforms ∧
    (gatherPhase D bm (PolicyEvaluator.Reset player) 0 l).2.1.transforms.length
      = (gatherPhase D bm (PolicyEvaluator.Reset player) 0 l).2.2.length := by
  have hrun : (gatherPhase D bm (PolicyEvaluator.Reset player) 0 l).2.1.Run
      = (gatherPhase D bm (PolicyEvaluator.Reset player) 0 l).2.1 := rfl
  have hfst := gatherPhase_fst D bm l (PolicyEvaluator.Reset player) 0
  have hidx := gatherPhase_idxs D bm l (PolicyEvaluator.Reset player) 0
  have hci : (gatherPhase D bm (PolicyEvaluator.Reset player) 0 l).2.1.comp_idx = 0 :=
    gatherPhase_comp_idx D bm l (PolicyEvaluator.Reset player) 0
  have htr : (gatherPhase D bm (PolicyEvaluator.Reset player) 0 l).2.1.transforms
      = (l.filter (fun s => duePred D bm s)).map
          (fun s => (D.encode (PolicyEvaluator.Reset player).input_format s.1.pos).2) := by
    rw [gatherPhase_transforms]
    rfl
  have hmapidx : dueIdxs D bm 0 (gatherPhase D bm (PolicyEvaluator.Reset player) 0 l).1
      = dueIdxs D bm 0 l := by
    rw [hfst, dueIdxs_map_gatherMap]
  have hdiLen : (dueIdxs D bm 0 l).length
      = (gatherPhase D bm (PolicyEvaluator.Reset player) 0 l).2.1.transforms.length := by
    rw [htr, List.length_map, dueIdxs_length_filter]
  refine ⟨?_, ?_, ?_, ?_⟩
  · rw [hrun, movePhase_idxs, hmapidx, hidx]
  · rw [hrun, movePhase_slots, hci, hmapidx, hidx, List.range_eq_range']
  · rw [hrun, movePhase_reads, hci, hmapidx, hdiLen, ← List.range_eq_range']
    exact map_getD_range _ 0
  · rw [hidx]
    exact hdiLen.symm

theorem dueIdxs_zip_mem (D : Dynamics) (bm : Bool) (trees : List NodeTree)
    (results2 : List GameResult) (j : Nat)
    (hj : j ∈ dueIdxs D bm 0 (trees.zip results2)) :
    ∃ t, trees[j]? = some t ∧ results2[j]? = some GameResult.UNDECIDED ∧
      (D.plyCount t.pos % 2 == 1) = bm := by
  obtain ⟨s, h0j, hget, hdue⟩ := mem_dueIdxs D bm (trees.zip results2) 0 j hj
  rw [Nat.sub_zero, zip_getElem?] at hget
  cases htj : trees[j]? with
  | none => rw [htj] at hget; simp at hget
  | some t =>
    cases hrj : results2[j]? with
    | none => rw [htj, hrj] at hget; simp at hget
    | some r =>
      rw [htj, hrj] at hget
      simp at hget
      rw [← hget] at hdue
      simp [duePred] at hdue
      exact ⟨t, rfl, by rw [hdue.1], hdue.2⟩

/-- C6: the gather loop only visits sessions that are still UNDECIDED after
    the scan and whose ply parity equals the round's due side, and a session
    whose position history already yields a terminal result is resolved by
    the scan and never reaches Gather or MakeBestMove that iteration. -/
theorem gather_only_undecided_due (D : Dynamics) (bm : Bool) (player : PlayerOptions)
    (tb : Option SyzygyTablebase) (trees : List NodeTree) (results : List GameResult) :
    (∀ j, j ∈ (gatherPhase D bm (PolicyEvaluator.Reset player) 0
          (trees.zip (scanResults D tb trees results))).2.2 →
        ∃ t, trees[j]? = some t ∧
          (scanResults D tb trees results)[j]? = some GameResult.UNDECIDED ∧
          (D.plyCount t.pos % 2 == 1) = bm) ∧
    (∀ j t, trees[j]? = some t → results[j]? = some GameResult.UNDECIDED →
        D.computeGameResult t.pos ≠ GameResult.UNDECIDED →
        (scanResults D tb trees results)[j]? = some (D.computeGameResult t.pos) ∧
        j ∉ (gatherPhase D bm (PolicyEvaluator.Reset player) 0
            (trees.zip (scanResults D tb trees results))).2.2 ∧
        j ∉ (movePhase D bm (gatherPhase D bm (PolicyEvaluator.Reset player) 0
              (trees.zip (scanResults D tb trees results))).2.1.Run 0
            (gatherPhase D bm (PolicyEvaluator.Reset player) 0
              (trees.zip (scanResults D tb trees results))).1).2.2.map (fun c => c.1)) := by
  have hgidx := gatherPhase_idxs D bm (trees.zip (scanResults D tb trees results))
    (PolicyEvaluator.Reset player) 0
  have hmidx : (movePhase D bm (gatherPhase D bm (PolicyEvaluator.Reset player) 0
        (trees.zip (scanResults D tb trees results))).2.1.Run 0
      (gatherPhase D bm (PolicyEvaluator.Reset player) 0
        (trees.zip (scanResults D tb trees results))).1).2.2.map (fun c => c.1)
      = dueIdxs D bm 0 (trees.zip (scanResults D tb trees results)) := by
    rw [movePhase_idxs, gatherPhase_fst, dueIdxs_map_gatherMap]
  constructor
  · intro j hj
    rw [hgidx] at hj
    exact dueIdxs_zip_mem D bm trees (scanResults D tb trees results) j hj
  · intro j t htj hrj hterm
    have hscanj : (scanResults D tb trees results)[j]? = some (D.computeGameResult t.pos) := by
      rw [scanResults_getElem?, htj, hrj]
      simp [resolveSession, hterm]
    have hnotdue : j ∉ dueIdxs D bm 0 (trees.zip (scanResults D tb trees results)) := by
      intro hj
      obtain ⟨t2, htj2, hrj2, hp⟩ := dueIdxs_zip_mem D bm trees _ j hj
      rw [hscanj] at hrj2
      injection hrj2 with hres
      exact hterm hres
    refine ⟨hscanj, ?_, ?_⟩
    · rw [hgidx]; exact hnotdue
    · rw [hmidx]; exact hnotdue

/-- C7: when the scan leaves a first still-UNDECIDED session i0, the due
    side for the whole iteration is read from that session's ply parity (odd
    means side 1, even side 0), the evaluator is Reset with that side's
    PlayerOptions, and every still-UNDECIDED session of the other parity is
    skipped: not gathered, not moved, its result and tree untouched. -/
theorem due_side_first_undecided (D : Dynamics) (g : MultiSelfPlayGames) (i0 : Nat)
    (hab : g.abort_ = false)
    (hfind : firstUndecided (scanResults D g.syzygy_tb_ g.trees_ g.results_) 0 = some i0) :
    (playIteration D g).2.map (fun log => log.side)
      = some (if D.plyCount ((g.trees_.getD i0 default).pos) % 2 == 1 then 1 else 0) ∧
    (playIteration D g).2.map (fun log => log.resetWith)
      = some (if D.plyCount ((g.trees_.getD i0 default).pos) % 2 == 1
              then g.options_.2 else g.options_.1) ∧
    (scanResults D g.syzygy_tb_ g.trees_ g.results_)[i0]? = some GameResult.UNDECIDED ∧
    (∀ k, k < i0 →
      (scanResults D g.syzygy_tb_ g.trees_ g.results_)[k]? ≠ some GameResult.UNDECIDED) ∧
    (∀ j t, g.trees_[j]? = some t →
      (scanResults D g.syzygy_tb_ g.trees_ g.results_)[j]? = some GameResult.UNDECIDED →
      (D.plyCount t.pos % 2 == 1) ≠ (D.plyCount ((g.trees_.getD i0 default).pos) % 2 == 1) →
      (playIteration D g).2.map (fun log => decide (j ∈ log.gathered)) = some false ∧
      (playIteration D g).2.map (fun log => decide (j ∈ log.moved.map (fun c => c.1)))
        = some false ∧
      (playIteration D g).1.results_[j]? = some GameResult.UNDECIDED ∧
      (playIteration D g).1.trees_[j]? = some t) := by
  have hstep := playIteration_step D g i0 hab hfind
  obtain ⟨hfi0, hgetU, hmin0⟩ := firstUndecided_spec
    (scanResults D g.syzygy_tb_ g.trees_ g.results_) 0 i0 hfind
  rw [Nat.sub_zero] at hgetU hmin0
  have hlen2 : (scanResults D g.syzygy_tb_ g.trees_ g.results_).length ≤ g.trees_.length := by
    rw [scanResults, List.length_zipWith]
    exact Nat.min_le_left _ _
  obtain ⟨hsres, hslen, hsopt, hssyz, hsab⟩ :=
    playIterationStep_results D g (scanResults D g.syzygy_tb_ g.trees_ g.results_) i0 hlen2
  refine ⟨?_, ?_, hgetU, (fun k hk => hmin0 k hk), ?_⟩
  · rw [hstep]; simp [playIterationStep]
  · rw [hstep]; simp [playIterationStep]
  · intro j t htj hsj hpar
    have hdueF : duePred D (D.plyCount ((g.trees_.getD i0 default).pos) % 2 == 1)
        (t, GameResult.UNDECIDED) = false := by
      rw [duePred]
      rw [show decide (((t, GameResult.UNDECIDED) : NodeTree × GameResult).2
        = GameResult.UNDECIDED) = true from rfl, Bool.true_and]
      exact beq_eq_false_iff_ne.mpr hpar
    have hsess : (g.trees_.zip (scanResults D g.syzygy_tb_ g.trees_ g.results_))[j]?
        = some (t, GameResult.UNDECIDED) := by
      rw [zip_getElem?, htj, hsj]
      rfl
    have hnot : j ∉ dueIdxs D (D.plyCount ((g.trees_.getD i0 default).pos) % 2 == 1) 0
        (g.trees_.zip (scanResults D g.syzygy_tb_ g.trees_ g.results_)) := by
      intro hj
      obtain ⟨s, h0j, hget, hdue⟩ := mem_dueIdxs D _ _ 0 j hj
      rw [Nat.sub_zero, hsess] at hget
      injection hget with hs
      rw [← hs, hdueF] at hdue
      exact Bool.false_ne_true hdue
    refine ⟨?_, ?_, ?_, ?_⟩
    · rw [hstep]
      simp only [playIterationStep, Option.map_some']
      rw [gatherPhase_idxs, decide_eq_false hnot]
    · rw [hstep]
      simp only [playIterationStep, Option.map_some']
      rw [movePhase_idxs, gatherPhase_fst, dueIdxs_map_gatherMap, decide_eq_false hnot]
    · rw [hstep, hsres]
      exact hsj
    · rw [hstep]
      simp only [playIterationStep]
      have hgp1 : (gatherPhase D (D.plyCount ((g.trees_.getD i0 default).pos) % 2 == 1)
          (PolicyEvaluator.Reset (if D.plyCount ((g.trees_.getD i0 default).pos) % 2 == 1
            then g.options_.2 else g.options_.1)) 0
          (g.trees_.zip (scanResults D g.syzygy_tb_ g.trees_ g.results_))).1[j]?
          = some (t, GameResult.UNDECIDED) := by
        rw [gatherPhase_fst, List.getElem?_map, hsess, Option.map_some']
        rw [gatherMap, if_neg (by rw [hdueF]; simp)]
      have hmp1 := movePhase_stable D
        (D.plyCount ((g.trees_.getD i0 default).pos) % 2 == 1)
        (gatherPhase D (D.plyCount ((g.trees_.getD i0 default).pos) % 2 == 1)
          (PolicyEvaluator.Reset (if D.plyCount ((g.trees_.getD i0 default).pos) % 2 == 1
            then g.options_.2 else g.options_.1)) 0
          (g.trees_.zip (scanResults D g.syzygy_tb_ g.trees_ g.results_))).1
        ((gatherPhase D (D.plyCount ((g.trees_.getD i0 default).pos) % 2 == 1)
          (PolicyEvaluator.Reset (if D.plyCount ((g.trees_.getD i0 default).pos) % 2 == 1
            then g.options_.2 else g.options_.1)) 0
          (g.trees_.zip (scanResults D g.syzygy_tb_ g.trees_ g.results_))).2.1.Run) 0 j
        (t, GameResult.UNDECIDED) hgp1 hdueF
      rw [List.getElem?_map, hmp1]
      rfl

/-- Witness for C7: with an even-parity first undecided session, side 0 is
    passed to Reset. -/
theorem due_side_first_undecided_witness :
    (playIteration wD wG7).2.map (fun log => log.side)
      = some (if wD.plyCount ((wG7.trees_.getD 0 default).pos) % 2 == 1 then 1 else 0) :=
  (due_side_first_undecided wD wG7 0 rfl (by decide)).1

/-- Witness for C6: the already-terminal session (position 50) is not
    gathered in its iteration. -/
theorem gather_only_undecided_due_witness :
    0 ∉ (gatherPhase wD false (PolicyEvaluator.Reset wP1) 0
        ([({ pos := 50, edges := [] } : NodeTree)].zip
          (scanResults wD none [{ pos := 50, edges := [] }] [GameResult.UNDECIDED]))).2.2 :=
  ((gather_only_undecided_due wD false wP1 none [{ pos := 50, edges := [] }]
    [GameResult.UNDECIDED]).2 0 { pos := 50, edges := [] } rfl rfl (by decide)).2.1

theorem getD_map_const {α : Type} (l : List α) :
    ∀ i, (l.map (fun _ => GameResult.UNDECIDED)).getD i GameResult.UNDECIDED
      = GameResult.UNDECIDED := by
  induction l with
  | nil => intro i; rfl
  | cons x rest ih =>
    intro i
    cases i with
    | zero => rfl
    | succ i2 => exact ih i2

/-- C5: every session's result is UNDECIDED at construction, and Play never
    changes a result that is already set: writes are guarded by the result
    still being UNDECIDED, so a decided session is never overwritten or
    reverted. -/
theorem results_write_once (D : Dynamics) :
    (∀ (player1 player2 : PlayerOptions) (openings : List Opening)
        (tb : Option SyzygyTablebase) (i : Nat),
      (mkMultiSelfPlayGames D player1 player2 openings tb).results_.getD i
          GameResult.UNDECIDED = GameResult.UNDECIDED) ∧
    (∀ (fuel : Nat) (g : MultiSelfPlayGames) (i : Nat),
      g.trees_.length = g.results_.length →
      g.results_.getD i GameResult.UNDECIDED ≠ GameResult.UNDECIDED →
      (play D fuel g).1.results_.getD i GameResult.UNDECIDED
        = g.results_.getD i GameResult.UNDECIDED) := by
  constructor
  · intro p1 p2 openings tb i
    simp only [mkMultiSelfPlayGames]
    exact getD_map_const openings i
  · intro fuel
    induction fuel with
    | zero => intro g i hlen hne; rfl
    | succ n ih =>
      intro g i hlen hne
      by_cases hab : g.abort_ = true
      · have hpi := playIteration_abort D g hab
        simp [play, hpi]
      · have hab2 : g.abort_ = false := by
          cases hb : g.abort_
          · rfl
          · exact absurd hb hab
        have hirr : i < g.results_.length := by
          by_contra hge
          push_neg at hge
          exact hne (List.getD_eq_default _ _ hge)
        have hitr : i < g.trees_.length := by rw [hlen]; exact hirr
        have hscanp := scanResults_preserve D g.syzygy_tb_ g.trees_ g.results_ i hitr hne
        cases hfind : firstUndecided (scanResults D g.syzygy_tb_ g.trees_ g.results_) 0 with
        | none =>
          have hpi := playIteration_done D g hab2 hfind
          simp only [play]
          rw [hpi]
          show (scanResults D g.syzygy_tb_ g.trees_ g.results_).getD i GameResult.UNDECIDED
            = g.results_.getD i GameResult.UNDECIDED
          exact hscanp
        | some i0 =>
          have hpi := playIteration_step D g i0 hab2 hfind
          have hlen2 : (scanResults D g.syzygy_tb_ g.trees_ g.results_).length
              ≤ g.trees_.length := by
            rw [scanResults, List.length_zipWith]
            exact Nat.min_le_left _ _
          obtain ⟨hsres, hslen, hsopt, hssyz, hsab⟩ :=
            playIterationStep_results D g (scanResults D g.syzygy_tb_ g.trees_ g.results_)
              i0 hlen2
          have hne2 : (playIterationStep D g
              (scanResults D g.syzygy_tb_ g.trees_ g.results_) i0).1.results_.getD i
                GameResult.UNDECIDED ≠ GameResult.UNDECIDED := by
            rw [hsres, hscanp]
            exact hne
          have hrec := ih (playIterationStep D g
            (scanResults D g.syzygy_tb_ g.trees_ g.results_) i0).1 i hslen hne2
          obtain ⟨log, hlog⟩ : ∃ log, (playIterationStep D g
              (scanResults D g.syzygy_tb_ g.trees_ g.results_) i0).2 = some log := ⟨_, rfl⟩
          simp only [play]
          rw [hpi, hlog]
          show (play D n (playIterationStep D g
            (scanResults D g.syzygy_tb_ g.trees_ g.results_) i0).1).1.results_.getD i
              GameResult.UNDECIDED = g.results_.getD i GameResult.UNDECIDED
          rw [hrec, hsres, hscanp]

/-- Witness for C5: a decided session stays decided across Play. -/
theorem results_write_once_witness :
    (play wD 3 wG5).1.results_.getD 0 GameResult.UNDECIDED
      = wG5.results_.getD 0 GameResult.UNDECIDED :=
  (results_write_once wD).2 3 wG5 0 rfl (by decide)

end lczero
